import Mathlib

/-!
Shallow embedding of the restaurant-management backend's controller layer
(src/controllers/foodController.go, src/controllers/orderController.go).

Documents of the document store are modelled as association lists of
string keys to values; collections are lists of documents.  MongoDB's
`$set`-with-upsert update and the three-stage aggregation pipeline used by
`GetFoods` are modelled by explicit functions.  Clock readings
(`time.Now()` truncated to RFC3339 second precision) are passed in as an
explicit integer parameter `now`.  float64 currency arithmetic is
modelled exactly over the rationals further below.
-/

namespace RM

/-- A BSON-style value: string, numeric (the exact rational value of the
float64 stored), timestamp (seconds), or null (marshalled nil pointer). -/
inductive Val where
  | str : String → Val
  | num : Rat → Val
  | time : Int → Val
  | null : Val
  deriving DecidableEq, Repr

/-- A document: an association list of field names to values. -/
abbrev Doc := List (String × Val)

/-- Value of field `k` in document `d` (first occurrence). -/
def getVal : Doc → String → Option Val
  | [], _ => none
  | (k', v') :: rest, k => if k' = k then some v' else getVal rest k

/-- Set field `k` to `v`: replace the first binding of `k`, or append. -/
def setKey : Doc → String → Val → Doc
  | [], k, v => [(k, v)]
  | (k', v') :: rest, k, v =>
      if k' = k then (k, v) :: rest else (k', v') :: setKey rest k v

/-- Apply a `$set` document (a list of field/value pairs) left to right. -/
def applySet (d : Doc) (upd : List (String × Val)) : Doc :=
  upd.foldl (fun acc kv => setKey acc kv.1 kv.2) d

/-- FindOne on a collection with an equality filter on one field. -/
def findOne (coll : List Doc) (k : String) (v : Val) : Option Doc :=
  coll.find? (fun d => getVal d k = some v)

/-- UpdateOne with an equality filter and `$set` update, upsert enabled:
the first matching document is updated in place; when none matches, a new
document is built from the filter's equality field plus the set document. -/
def updateOne (coll : List Doc) (fk : String) (fv : Val)
    (upd : List (String × Val)) : List Doc :=
  match coll with
  | [] => [applySet [(fk, fv)] upd]
  | d :: rest =>
      if getVal d fk = some fv then applySet d upd :: rest
      else d :: updateOne rest fk fv upd

/-- HTTP status classes used by the handlers. -/
inductive Status where
  | ok            -- 200
  | created       -- 201
  | badRequest    -- 400
  | notFound      -- 404
  | internalError -- 500
  deriving DecidableEq, Repr

/-- Whether a status is a client error (4xx). -/
def Status.isClientError : Status → Bool
  | .badRequest => true
  | .notFound => true
  | _ => false

/-- Response of a list endpoint: an indicator message object (a gin.H
with a single "message" entry), a raw JSON array of documents, a single
document, or the food pagination object with `total_count` and
`food_items`. -/
inductive ListResp where
  | message : String → ListResp
  | array : List Doc → ListResp
  | single : Doc → ListResp
  | page : Nat → List Doc → ListResp
  deriving DecidableEq, Repr

/-- Whether a list response is the "no items" indicator message shape. -/
def ListResp.isMessage : ListResp → Bool
  | .message _ => true
  | _ => false

/-! GetOrders and GetMenus (orderController.go / foodController.go). -/

/-- GetOrders: Find all, then return `allOrders[0]` when non-empty
("Return the first result"), or the "No orders found" message. -/
def GetOrders (orders : List Doc) : ListResp :=
  match orders with
  | [] => .message "No orders found"
  | d :: _ => .single d

/-- GetMenus: Find all and return the decoded slice as a JSON array
(also when the collection is empty). -/
def GetMenus (menus : List Doc) : ListResp :=
  .array menus

/-! GetFoods pagination (foodController.go lines 24-91). -/

/-- Effective recordsPerPage: 10 when absent/unparseable or below 1. -/
def effRecordsPerPage : Option Int → Int
  | none => 10
  | some n => if n < 1 then 10 else n

/-- Effective page: 1 when absent/unparseable or below 1. -/
def effPage : Option Int → Int
  | none => 1
  | some n => if n < 1 then 1 else n

/-- Effective startIndex: `(page-1) * recordsPerPage`, overridden by an
explicitly supplied (and parseable) startIndex query value. -/
def effStartIndex (rpp page : Int) : Option Int → Int
  | none => (page - 1) * rpp
  | some s => s

/-- MongoDB `$slice` with three arguments `[array, position, n]` (n ≥ 1
at the call site): a negative position counts from the end of the array,
clamped at its start; then up to `n` elements are taken. -/
def mongoSlice (l : List Doc) (pos : Int) (n : Int) : List Doc :=
  let start : Nat :=
    if 0 ≤ pos then pos.toNat else (max ((l.length : Int) + pos) 0).toNat
  (l.drop start).take n.toNat

/-- GetFoods: match-all, group (total_count plus pushed data), project
with `$slice`.  Over an empty collection the group stage emits no
document, so the handler returns the "No food items found" message;
otherwise it returns `allFoods[0]`, the single aggregation result. -/
def GetFoods (foods : List Doc)
    (recordsPerPageQ pageQ startIndexQ : Option Int) : ListResp :=
  let recordsPerPage := effRecordsPerPage recordsPerPageQ
  let page := effPage pageQ
  let startIndex := effStartIndex recordsPerPage page startIndexQ
  match foods with
  | [] => .message "No food items found"
  | _ => .page foods.length (mongoSlice foods startIndex recordsPerPage)

/-! Exact model of Go float64 (IEEE-754 binary64) arithmetic over the
rationals, for the currency rounding in foodController.go.  A finite
normal double is identified with its exact rational value; each Go
operation computes the exact rational result and re-rounds it to 53
significant bits (round to nearest, ties to even).  Overflow and
subnormals are outside the range used by the program's currency values
and are not modelled. -/

/-- The rational 2^k for an integer k. -/
def pow2 (k : Int) : Rat :=
  if 0 ≤ k then ((2 ^ k.toNat : Nat) : Rat) else 1 / ((2 ^ (-k).toNat : Nat) : Rat)

/-- Binary exponent of a positive rational: the unique e with
2^e ≤ q < 2^(e+1). -/
def ratExp (q : Rat) : Int :=
  let e0 : Int := (q.num.natAbs.log2 : Int) - (q.den.log2 : Int)
  if pow2 e0 ≤ q then e0 else e0 - 1

/-- Round a rational to the nearest integer, ties to even. -/
def rne (q : Rat) : Int :=
  let f : Int := ⌊q⌋
  let r : Rat := q - (f : Rat)
  if r < 1 / 2 then f
  else if 1 / 2 < r then f + 1
  else if f % 2 = 0 then f else f + 1

/-- Round a positive rational to 53 significant bits. -/
def doublePos (a : Rat) : Rat :=
  let e := ratExp a
  let m := rne (a * pow2 (52 - e))
  (m : Rat) * pow2 (e - 52)

/-- The float64 nearest to a rational (normal finite range). -/
def doubleOfRat (q : Rat) : Rat :=
  if q = 0 then 0
  else if q < 0 then -(doublePos (-q)) else doublePos q

/-- float64 multiplication. -/
def fmul (x y : Rat) : Rat := doubleOfRat (x * y)

/-- float64 addition. -/
def fadd (x y : Rat) : Rat := doubleOfRat (x + y)

/-- float64 division. -/
def fdiv (x y : Rat) : Rat := doubleOfRat (x / y)

/-- Source `round` (foodController.go 170-172):
`int(num + math.Copysign(0.5, num))`.  The float64 addition is rounded;
the int conversion truncates toward zero (in-range values only). -/
def round (num : Rat) : Int :=
  let s : Rat := if num < 0 then -(1 / 2) else 1 / 2
  let t := fadd num s
  if t < 0 then -⌊-t⌋ else ⌊t⌋

/-- Source `toFixed` (foodController.go 174-177):
`float64(round(num*output)) / output` with `output := math.Pow(10, p)`
(exact for the small powers used; the int-to-float64 conversion is also
a rounding, exact below 2^53). -/
def toFixed (num : Rat) (precision : Nat) : Rat :=
  let output : Rat := doubleOfRat ((10 ^ precision : Nat) : Rat)
  fdiv (doubleOfRat ((round (fmul num output) : Int) : Rat)) output

/-! Helper lemmas that let concrete float64 computations be settled by
rational inequalities (dischargeable by norm_num). -/

theorem pow2_eq_zpow (k : Int) : pow2 k = (2 : Rat) ^ k := by
  unfold pow2
  split
  · rename_i h
    push_cast
    rw [← zpow_natCast, Int.toNat_of_nonneg h]
  · rename_i h
    push_cast
    rw [← zpow_natCast, Int.toNat_of_nonneg (by omega : (0 : Int) ≤ -k),
      one_div, ← zpow_neg, neg_neg]

theorem pow2_pos (k : Int) : 0 < pow2 k := by
  rw [pow2_eq_zpow]
  exact zpow_pos (by norm_num) k

/-- ratExp is determined by the bracketing property. -/
theorem ratExp_unique (q : Rat) (e : Int)
    (h1 : pow2 e ≤ q) (h2 : q < pow2 (e + 1)) : ratExp q = e := by
  have hq : 0 < q := lt_of_lt_of_le (pow2_pos e) h1
  -- the candidate value brackets q within a factor of 4
  have hnum : 0 < q.num := Rat.num_pos.mpr hq
  have hden : 0 < q.den := q.pos
  have hq' : q = (q.num.natAbs : Rat) / (q.den : Rat) := by
    rw [Int.cast_natAbs]
    rw [abs_of_nonneg (by exact_mod_cast hnum.le)]
    exact_mod_cast (Rat.num_div_den q).symm
  have hnum0 : q.num.natAbs ≠ 0 := by omega
  have hden0 : q.den ≠ 0 := by omega
  have hlnum : (2 : Nat) ^ q.num.natAbs.log2 ≤ q.num.natAbs := by
    rw [Nat.log2_eq_log_two]
    exact Nat.pow_log_le_self 2 hnum0
  have hlnum' : q.num.natAbs < 2 ^ (q.num.natAbs.log2 + 1) := by
    rw [Nat.log2_eq_log_two]
    exact Nat.lt_pow_succ_log_self (by norm_num) _
  have hlden : (2 : Nat) ^ q.den.log2 ≤ q.den := by
    rw [Nat.log2_eq_log_two]
    exact Nat.pow_log_le_self 2 hden0
  have hlden' : q.den < 2 ^ (q.den.log2 + 1) := by
    rw [Nat.log2_eq_log_two]
    exact Nat.lt_pow_succ_log_self (by norm_num) _
  set a : Nat := q.num.natAbs.log2 with ha
  set b : Nat := q.den.log2 with hb
  -- rational versions of the bracketing of numerator and denominator
  have hA1 : (2 : Rat) ^ (a : Int) ≤ (q.num.natAbs : Rat) := by
    rw [zpow_natCast]
    exact_mod_cast hlnum
  have hA2 : (q.num.natAbs : Rat) < (2 : Rat) ^ ((a : Int) + 1) := by
    have : ((a : Int) + 1) = ((a + 1 : Nat) : Int) := by push_cast; ring
    rw [this, zpow_natCast]
    exact_mod_cast hlnum'
  have hB1 : (2 : Rat) ^ (b : Int) ≤ (q.den : Rat) := by
    rw [zpow_natCast]
    exact_mod_cast hlden
  have hB2 : (q.den : Rat) < (2 : Rat) ^ ((b : Int) + 1) := by
    have : ((b : Int) + 1) = ((b + 1 : Nat) : Int) := by push_cast; ring
    rw [this, zpow_natCast]
    exact_mod_cast hlden'
  have hdenR : (0 : Rat) < (q.den : Rat) := by exact_mod_cast hden
  have hulow : (2 : Rat) ^ ((a : Int) - (b : Int) - 1) < q := by
    rw [hq']
    rw [lt_div_iff₀ hdenR]
    calc (2 : Rat) ^ ((a : Int) - (b : Int) - 1) * (q.den : Rat)
        < 2 ^ ((a : Int) - (b : Int) - 1) * 2 ^ ((b : Int) + 1) := by
          apply mul_lt_mul_of_pos_left hB2 (zpow_pos (by norm_num) _)
      _ = 2 ^ (a : Int) := by
          rw [← zpow_add₀ (by norm_num : (2 : Rat) ≠ 0)]
          ring_nf
      _ ≤ (q.num.natAbs : Rat) := hA1
  have huhigh : q < (2 : Rat) ^ ((a : Int) - (b : Int) + 1) := by
    rw [hq']
    rw [div_lt_iff₀ hdenR]
    calc (q.num.natAbs : Rat)
        < (2 : Rat) ^ ((a : Int) + 1) := hA2
      _ = 2 ^ ((a : Int) - (b : Int) + 1) * 2 ^ (b : Int) := by
          rw [← zpow_add₀ (by norm_num : (2 : Rat) ≠ 0)]
          ring_nf
      _ ≤ 2 ^ ((a : Int) - (b : Int) + 1) * (q.den : Rat) := by
          apply mul_le_mul_of_nonneg_left hB1 (zpow_pos (by norm_num : (0:Rat) < 2) _).le
  -- uniqueness of the binary exponent
  have uniq : ∀ x y : Int, (2 : Rat) ^ x ≤ q → q < 2 ^ (x + 1) →
      (2 : Rat) ^ y ≤ q → q < 2 ^ (y + 1) → x = y := by
    intro x y hx1 hx2 hy1 hy2
    by_contra hne
    rcases Int.lt_or_lt_of_ne hne with h | h
    · have : (2 : Rat) ^ (x + 1) ≤ 2 ^ y :=
        zpow_le_zpow_right₀ (by norm_num) (by omega)
      exact absurd (lt_of_lt_of_le (lt_of_lt_of_le hx2 this) hy1) (lt_irrefl q)
    · have : (2 : Rat) ^ (y + 1) ≤ 2 ^ x :=
        zpow_le_zpow_right₀ (by norm_num) (by omega)
      exact absurd (lt_of_lt_of_le (lt_of_lt_of_le hy2 this) hx1) (lt_irrefl q)
  rw [pow2_eq_zpow] at h1 h2
  have key : ratExp q =
      if pow2 ((q.num.natAbs.log2 : Int) - (q.den.log2 : Int)) ≤ q
      then (q.num.natAbs.log2 : Int) - (q.den.log2 : Int)
      else (q.num.natAbs.log2 : Int) - (q.den.log2 : Int) - 1 := rfl
  rw [key, ← ha, ← hb, pow2_eq_zpow]
  split
  · rename_i hcase
    exact uniq _ _ hcase huhigh h1 h2
  · rename_i hcase
    push_neg at hcase
    have hx2 : q < (2 : Rat) ^ ((a : Int) - (b : Int) - 1 + 1) := by
      have hh : ((a : Int) - (b : Int) - 1 + 1) = (a : Int) - (b : Int) := by ring
      rw [hh]
      exact hcase
    exact uniq _ _ hulow.le hx2 h1 h2

/-- rne at a value below the midpoint rounds down. -/
theorem rne_of_lt_half (q : Rat) (n : Int)
    (h1 : (n : Rat) ≤ q) (h2 : q < (n : Rat) + 1 / 2) : rne q = n := by
  have hf : ⌊q⌋ = n := by
    rw [Int.floor_eq_iff]
    constructor
    · exact h1
    · linarith
  have key : rne q =
      if q - (⌊q⌋ : Rat) < 1 / 2 then ⌊q⌋
      else if 1 / 2 < q - (⌊q⌋ : Rat) then ⌊q⌋ + 1
      else if ⌊q⌋ % 2 = 0 then ⌊q⌋ else ⌊q⌋ + 1 := rfl
  rw [key, hf, if_pos (by linarith)]

/-- rne at a value above the midpoint rounds up. -/
theorem rne_of_half_lt (q : Rat) (n : Int)
    (h1 : (n : Rat) + 1 / 2 < q) (h2 : q < (n : Rat) + 1) : rne q = n + 1 := by
  have hf : ⌊q⌋ = n := by
    rw [Int.floor_eq_iff]
    constructor
    · linarith
    · linarith
  have key : rne q =
      if q - (⌊q⌋ : Rat) < 1 / 2 then ⌊q⌋
      else if 1 / 2 < q - (⌊q⌋ : Rat) then ⌊q⌋ + 1
      else if ⌊q⌋ % 2 = 0 then ⌊q⌋ else ⌊q⌋ + 1 := rfl
  rw [key, hf, if_neg (by linarith), if_pos (by linarith)]

/-- doubleOfRat of a positive rational whose 53-bit scaled value lies
below the rounding midpoint. -/
theorem doubleOfRat_eq_lo (q : Rat) (e m : Int)
    (h1 : pow2 e ≤ q) (h2 : q < pow2 (e + 1))
    (hm1 : (m : Rat) ≤ q * pow2 (52 - e))
    (hm2 : q * pow2 (52 - e) < (m : Rat) + 1 / 2) :
    doubleOfRat q = (m : Rat) * pow2 (e - 52) := by
  have hq : 0 < q := lt_of_lt_of_le (pow2_pos e) h1
  have he : ratExp q = e := ratExp_unique q e h1 h2
  have key : doubleOfRat q =
      if q = 0 then 0
      else if q < 0 then -((rne (-q * pow2 (52 - ratExp (-q))) : Rat) * pow2 (ratExp (-q) - 52))
      else (rne (q * pow2 (52 - ratExp q)) : Rat) * pow2 (ratExp q - 52) := rfl
  rw [key, if_neg (by exact hq.ne'), if_neg (by exact not_lt.mpr hq.le), he,
    rne_of_lt_half _ m hm1 hm2]

/-- doubleOfRat of a positive rational whose 53-bit scaled value lies
above the rounding midpoint. -/
theorem doubleOfRat_eq_hi (q : Rat) (e m : Int)
    (h1 : pow2 e ≤ q) (h2 : q < pow2 (e + 1))
    (hm1 : (m : Rat) + 1 / 2 < q * pow2 (52 - e))
    (hm2 : q * pow2 (52 - e) < (m : Rat) + 1) :
    doubleOfRat q = ((m : Rat) + 1) * pow2 (e - 52) := by
  have hq : 0 < q := lt_of_lt_of_le (pow2_pos e) h1
  have he : ratExp q = e := ratExp_unique q e h1 h2
  have key : doubleOfRat q =
      if q = 0 then 0
      else if q < 0 then -((rne (-q * pow2 (52 - ratExp (-q))) : Rat) * pow2 (ratExp (-q) - 52))
      else (rne (q * pow2 (52 - ratExp q)) : Rat) * pow2 (ratExp q - 52) := rfl
  rw [key, if_neg (by exact hq.ne'), if_neg (by exact not_lt.mpr hq.le), he,
    rne_of_half_lt _ m hm1 hm2]
  push_cast
  ring

/-! Concrete float64 computation chain for a submitted price of 9.995
(decimal), following CreateFood's call `toFixed(*food.Price, 2)`.
2^49 = 562949953421312 and 2^43 = 8796093022208 below. -/

/-- The float64 nearest the decimal 9.995 is 5626684784446013 / 2^49,
which is strictly below 9.995. -/
theorem dbl_9995 :
    doubleOfRat ((9995 : Rat) / 1000) =
      (5626684784446013 : Rat) / 562949953421312 := by
  have h := doubleOfRat_eq_lo ((9995 : Rat) / 1000) 3 5626684784446013
    (by norm_num [pow2_eq_zpow]) (by norm_num [pow2_eq_zpow])
    (by norm_num [pow2_eq_zpow]) (by norm_num [pow2_eq_zpow])
  rw [h]
  norm_num [pow2_eq_zpow]

/-- float64 multiplication of that value by 100 rounds DOWN to
8791694975696895 / 2^43, i.e. strictly below 999.5. -/
theorem fmul_9995_100 :
    fmul ((5626684784446013 : Rat) / 562949953421312) 100 =
      (8791694975696895 : Rat) / 8796093022208 := by
  unfold fmul
  have h := doubleOfRat_eq_lo ((5626684784446013 : Rat) / 562949953421312 * 100)
    9 8791694975696895
    (by norm_num [pow2_eq_zpow]) (by norm_num [pow2_eq_zpow])
    (by norm_num [pow2_eq_zpow]) (by norm_num [pow2_eq_zpow])
  rw [h]
  norm_num [pow2_eq_zpow]

/-- Adding 0.5 to that product is exact: 8796093022207999 / 2^43,
still strictly below 1000. -/
theorem fadd_step :
    fadd ((8791694975696895 : Rat) / 8796093022208) (1 / 2) =
      (8796093022207999 : Rat) / 8796093022208 := by
  unfold fadd
  have h := doubleOfRat_eq_lo ((8791694975696895 : Rat) / 8796093022208 + 1 / 2)
    9 8796093022207999
    (by norm_num [pow2_eq_zpow]) (by norm_num [pow2_eq_zpow])
    (by norm_num [pow2_eq_zpow]) (by norm_num [pow2_eq_zpow])
  rw [h]
  norm_num [pow2_eq_zpow]

/-- Go's round (truncation after adding copysign 0.5) yields 999. -/
theorem round_step :
    round ((8791694975696895 : Rat) / 8796093022208) = 999 := by
  have key : round ((8791694975696895 : Rat) / 8796093022208) =
      (if (fadd ((8791694975696895 : Rat) / 8796093022208)
            (if ((8791694975696895 : Rat) / 8796093022208) < 0 then -(1 / 2) else 1 / 2)) < 0
       then -⌊-(fadd ((8791694975696895 : Rat) / 8796093022208)
            (if ((8791694975696895 : Rat) / 8796093022208) < 0 then -(1 / 2) else 1 / 2))⌋
       else ⌊fadd ((8791694975696895 : Rat) / 8796093022208)
            (if ((8791694975696895 : Rat) / 8796093022208) < 0 then -(1 / 2) else 1 / 2)⌋) := rfl
  have hpos : ¬((8791694975696895 : Rat) / 8796093022208 < 0) := by norm_num
  rw [key]
  simp only [if_neg hpos]
  rw [fadd_step]
  have hpos2 : ¬((8796093022207999 : Rat) / 8796093022208 < 0) := by norm_num
  rw [if_neg hpos2, Int.floor_eq_iff]
  constructor
  · norm_num
  · norm_num

/-- float64 of the integer 999 is exact. -/
theorem dbl_999 : doubleOfRat ((999 : Rat)) = 999 := by
  have h := doubleOfRat_eq_lo (999 : Rat) 9 8787296929185792
    (by norm_num [pow2_eq_zpow]) (by norm_num [pow2_eq_zpow])
    (by norm_num [pow2_eq_zpow]) (by norm_num [pow2_eq_zpow])
  rw [h]
  norm_num [pow2_eq_zpow]

/-- float64 of the integer 100 (the value of math.Pow(10, 2)) is exact. -/
theorem dbl_100 : doubleOfRat ((100 : Rat)) = 100 := by
  have h := doubleOfRat_eq_lo (100 : Rat) 6 7036874417766400
    (by norm_num [pow2_eq_zpow]) (by norm_num [pow2_eq_zpow])
    (by norm_num [pow2_eq_zpow]) (by norm_num [pow2_eq_zpow])
  rw [h]
  norm_num [pow2_eq_zpow]

/-- float64 division 999/100 rounds UP to 5623870034678907 / 2^49, the
double printed as 9.99 (slightly above the decimal 9.99). -/
theorem fdiv_999_100 :
    fdiv (999 : Rat) 100 = (5623870034678907 : Rat) / 562949953421312 := by
  unfold fdiv
  have h := doubleOfRat_eq_hi ((999 : Rat) / 100) 3 5623870034678906
    (by norm_num [pow2_eq_zpow]) (by norm_num [pow2_eq_zpow])
    (by norm_num [pow2_eq_zpow]) (by norm_num [pow2_eq_zpow])
  rw [h]
  norm_num [pow2_eq_zpow]

/-- toFixed on the float64 of 9.995 with precision 2 returns the float64
of 999/100 (printed 9.99), NOT 10. -/
theorem toFixed_9995 :
    toFixed ((5626684784446013 : Rat) / 562949953421312) 2 =
      (5623870034678907 : Rat) / 562949953421312 := by
  have key : toFixed ((5626684784446013 : Rat) / 562949953421312) 2 =
      fdiv (doubleOfRat ((round (fmul ((5626684784446013 : Rat) / 562949953421312)
              (doubleOfRat ((10 ^ 2 : Nat) : Rat))) : Int) : Rat))
        (doubleOfRat ((10 ^ 2 : Nat) : Rat)) := rfl
  have h100 : doubleOfRat ((10 ^ 2 : Nat) : Rat) = 100 := by
    rw [show ((10 ^ 2 : Nat) : Rat) = (100 : Rat) by norm_num]
    exact dbl_100
  rw [key, h100, fmul_9995_100, round_step]
  rw [show (((999 : Int) : Rat)) = (999 : Rat) by norm_num]
  rw [dbl_999, fdiv_999_100]

/-! Create/update handlers.  A handler's outcome is modelled as the HTTP
status class, the response message text, and the state of the target
collection after the request.  JSON binding and struct validation happen
before the modelled logic and are outside the claims' scope; payloads are
taken already bound.  Pointer-typed optional fields of models.Food /
models.Order are `Option`s; the string fields of models.Menu carry their
Go zero value "" when absent, exactly as seen by the controller code. -/

/-- Inbound models.Food payload: all four body fields are pointers in the
source (`food.Name != nil` etc.), hence Options here.  The numeric price
carries the exact rational value of the bound float64. -/
structure FoodPayload where
  name : Option String
  price : Option Rat
  food_image : Option String
  menu_id : Option String

/-- A nil-able string marshals as the string or as BSON null. -/
def valOfOptStr : Option String → Val
  | some s => .str s
  | none => .null

/-- The `$set` document built by UpdateFood (foodController.go 192-218):
name, price, food_image, menu_id when present, then always updated_at. -/
def updateFoodSetDoc (food : FoodPayload) (now : Int) : List (String × Val) :=
  (match food.name with | some n => [("name", Val.str n)] | none => []) ++
  (match food.price with | some q => [("price", Val.num q)] | none => []) ++
  (match food.food_image with | some s => [("food_image", Val.str s)] | none => []) ++
  (match food.menu_id with | some m => [("menu_id", Val.str m)] | none => []) ++
  [("updated_at", Val.time now)]

/-- UpdateFood (foodController.go 179-240).  When the payload carries a
menu_id, the referenced menu must exist, otherwise the handler responds
500 "message : Menu not found" and performs no write; otherwise it issues
an upserting UpdateOne with the sparse set document. -/
def UpdateFood (menus foods : List Doc) (foodId : String)
    (food : FoodPayload) (now : Int) : Status × String × List Doc :=
  match food.menu_id with
  | some mid =>
      match findOne menus "menu_id" (.str mid) with
      | none => (.internalError, "message : Menu not found", foods)
      | some _ =>
          (.ok, "Food item updated successfully",
            updateOne foods "food_id" (.str foodId) (updateFoodSetDoc food now))
  | none =>
      (.ok, "Food item updated successfully",
        updateOne foods "food_id" (.str foodId) (updateFoodSetDoc food now))

/-- CreateFood (foodController.go 118-168): after binding/validation, the
referenced menu must exist (404 "Menu not found", no insert, otherwise);
then ids and timestamps are stamped, the price — when present — is
rounded via `toFixed(_, 2)`, and the document is inserted. -/
def CreateFood (menus foods : List Doc) (food : FoodPayload)
    (newId : String) (now : Int) : Status × String × List Doc :=
  match findOne menus "menu_id" (valOfOptStr food.menu_id) with
  | none => (.notFound, "Menu not found", foods)
  | some _ =>
      let storedPrice : Val :=
        match food.price with
        | some q => .num (toFixed q 2)
        | none => .null
      let doc : Doc :=
        [("food_id", .str newId),
         ("name", valOfOptStr food.name),
         ("price", storedPrice),
         ("food_image", valOfOptStr food.food_image),
         ("menu_id", valOfOptStr food.menu_id),
         ("created_at", .time now),
         ("updated_at", .time now)]
      (.created, "Food item created", foods ++ [doc])

/-- Inbound models.Menu payload: Name and Category are plain Go strings
(zero value "" when absent from the JSON body); the validity window
fields are pointers. -/
structure MenuPayload where
  name : String
  category : String
  start_date : Option Int
  end_date : Option Int

/-- Source `inTimeSpan` (foodController.go 342-344): the `check`
argument is ignored; the source compares against a fresh `time.Now()`,
passed here explicitly as `now`. -/
def inTimeSpan (start endDate check now : Int) : Bool :=
  decide (now < start) && decide (start < endDate)

/-- The name/category part of UpdateMenu's set document: an empty string
is skipped (`menu.Name != ""`). -/
def updateMenuNameCat (menu : MenuPayload) : List (String × Val) :=
  (if menu.name ≠ "" then [("name", Val.str menu.name)] else []) ++
  (if menu.category ≠ "" then [("category", Val.str menu.category)] else [])

/-- UpdateMenu (foodController.go 346-402).  When both window dates are
present they must pass `inTimeSpan`, otherwise 500 "Kindly correct the
time" with no write; the set document then carries the dates (when both
present), non-empty name/category, and always updated_at, applied by an
upserting UpdateOne. -/
def UpdateMenu (menus : List Doc) (menuId : String)
    (menu : MenuPayload) (now : Int) : Status × String × List Doc :=
  match menu.start_date, menu.end_date with
  | some s, some e =>
      if !(inTimeSpan s e now now) then
        (.internalError, "Kindly correct the time", menus)
      else
        (.ok, "Menu updated successfully",
          updateOne menus "menu_id" (.str menuId)
            ([("start_date", Val.time s), ("end_date", Val.time e)] ++
              updateMenuNameCat menu ++ [("updated_at", Val.time now)]))
  | _, _ =>
      (.ok, "Menu updated successfully",
        updateOne menus "menu_id" (.str menuId)
          (updateMenuNameCat menu ++ [("updated_at", Val.time now)]))

/-- Inbound models.Order payload: the table reference is a pointer. -/
structure OrderPayload where
  table_id : Option String

/-- UpdateOrder (orderController.go 118-168).  When the payload carries a
table_id, the referenced table must exist, otherwise the handler responds
500 with the (misworded) "message : Order not found" and performs no
write; otherwise an upserting UpdateOne with table_id (when present) and
updated_at. -/
def UpdateOrder (tables orders : List Doc) (orderId : String)
    (order : OrderPayload) (now : Int) : Status × String × List Doc :=
  match order.table_id with
  | some t =>
      match findOne tables "table_id" (.str t) with
      | none => (.internalError, "message : Order not found", orders)
      | some _ =>
          (.ok, "order item updated successfully",
            updateOne orders "order_id" (.str orderId)
              [("table_id", Val.str t), ("updated_at", Val.time now)])
  | none =>
      (.ok, "order item updated successfully",
        updateOne orders "order_id" (.str orderId)
          [("updated_at", Val.time now)])

/-- CreateOrder (orderController.go 74-116): the referenced table must
exist (404 "Table not found", no insert, otherwise); then ids and
timestamps are stamped and the document inserted. -/
def CreateOrder (tables orders : List Doc) (order : OrderPayload)
    (newId : String) (now : Int) : Status × String × List Doc :=
  match findOne tables "table_id" (valOfOptStr order.table_id) with
  | none => (.notFound, "Table not found", orders)
  | some _ =>
      (.created, "order item created",
        orders ++ [[("order_id", .str newId),
                    ("table_id", valOfOptStr order.table_id),
                    ("created_at", .time now),
                    ("updated_at", .time now)]])

/-! General lemmas about the document-store primitives. -/

theorem getVal_setKey_self (d : Doc) (k : String) (v : Val) :
    getVal (setKey d k v) k = some v := by
  induction d with
  | nil => simp [setKey, getVal]
  | cons kv rest ih =>
      obtain ⟨k', v'⟩ := kv
      by_cases h : k' = k
      · subst h
        simp [setKey, getVal]
      · simp [setKey, getVal, h, ih]

theorem getVal_setKey_ne (d : Doc) (k k' : String) (v : Val) (h : k' ≠ k) :
    getVal (setKey d k v) k' = getVal d k' := by
  induction d with
  | nil => simp [setKey, getVal, Ne.symm h]
  | cons kv rest ih =>
      obtain ⟨k0, v0⟩ := kv
      by_cases h0 : k0 = k
      · subst h0
        simp [setKey, getVal, Ne.symm h]
      · by_cases h1 : k0 = k'
        · subst h1
          simp [setKey, getVal, h0]
        · simp [setKey, getVal, h0, h1, ih]

/-- Fields not named in a set document are unchanged by applySet. -/
theorem getVal_applySet_not_mem (upd : List (String × Val)) (d : Doc)
    (k : String) (h : k ∉ upd.map Prod.fst) :
    getVal (applySet d upd) k = getVal d k := by
  induction upd generalizing d with
  | nil => rfl
  | cons kv rest ih =>
      obtain ⟨k0, v0⟩ := kv
      simp only [List.map_cons, List.mem_cons] at h
      push_neg at h
      have step : applySet d ((k0, v0) :: rest) = applySet (setKey d k0 v0) rest := rfl
      rw [step, ih _ h.2, getVal_setKey_ne _ _ _ _ h.1]

/-- The last binding of a key in a set document wins. -/
theorem getVal_applySet_append (upd : List (String × Val)) (d : Doc)
    (k : String) (v : Val) :
    getVal (applySet d (upd ++ [(k, v)])) k = some v := by
  unfold applySet
  rw [List.foldl_append]
  exact getVal_setKey_self _ _ _

/-- UpdateOne against a collection with no matching document appends the
upserted document built from the filter field plus the set document. -/
theorem updateOne_no_match (coll : List Doc) (fk : String) (fv : Val)
    (upd : List (String × Val))
    (h : ∀ d ∈ coll, getVal d fk ≠ some fv) :
    updateOne coll fk fv upd = coll ++ [applySet [(fk, fv)] upd] := by
  induction coll with
  | nil => rfl
  | cons d rest ih =>
      have hd : getVal d fk ≠ some fv := h d (by simp)
      have step : updateOne (d :: rest) fk fv upd =
          if getVal d fk = some fv then applySet d upd :: rest
          else d :: updateOne rest fk fv upd := rfl
      rw [step, if_neg hd, ih (fun d' hd' => h d' (by simp [hd']))]
      rfl

/-- mongoSlice at a non-negative position is drop-then-take. -/
theorem mongoSlice_nonneg (l : List Doc) (pos n : Int) (h : 0 ≤ pos) :
    mongoSlice l pos n = (l.drop pos.toNat).take n.toNat := by
  unfold mongoSlice
  rw [if_pos h]

/-! Sample documents used as concrete inputs. -/

def menuDocA : Doc := [("menu_id", .str "m1"), ("name", .str "Lunch")]

def menuDocB : Doc := [("menu_id", .str "m2"), ("name", .str "Dinner")]

def tableDocA : Doc := [("table_id", .str "t1")]

def orderDocA : Doc := [("order_id", .str "o1"), ("table_id", .str "t1")]

def orderDocB : Doc := [("order_id", .str "o2"), ("table_id", .str "t1")]

def fdocA : Doc := [("food_id", .str "f1")]

def fdocB : Doc := [("food_id", .str "f2")]

def fdocC : Doc := [("food_id", .str "f3")]

def fdocD : Doc := [("food_id", .str "f4")]

def fdocE : Doc := [("food_id", .str "f5")]

/-- A five-record food collection. -/
def fiveFoods : List Doc := [fdocA, fdocB, fdocC, fdocD, fdocE]

/-! Claim theorems. -/

/-- C1: the claim says every list operation over a non-empty collection
returns all matching records.  GetMenus and GetFoods do (GetFoods indexes
`allFoods[0]` but that is the single aggregation result packaging all
records), yet GetOrders returns only the first order document of a
two-order collection: the plain Find is indexed with `[0]` as if it were
an aggregation result, dropping every record after the first. -/
theorem claim_C1_getOrders_first_only :
    GetMenus [menuDocA, menuDocB] = ListResp.array [menuDocA, menuDocB] ∧
    GetFoods [fdocA, fdocB] none none none = ListResp.page 2 [fdocA, fdocB] ∧
    GetOrders [orderDocA, orderDocB] = ListResp.single orderDocA ∧
    GetOrders [orderDocA, orderDocB] ≠ ListResp.array [orderDocA, orderDocB] := by
  refine ⟨rfl, by decide, rfl, by decide⟩

/-- C2 counterexample: the claim says a missing foreign key makes every
create or update respond with a CLIENT error; but UpdateFood with an
unknown menu_id responds 500 (internal server error), which is not a
client error. -/
theorem claim_C2_counterexample :
    (UpdateFood [] [fdocA] "f1" ⟨none, none, none, some "m1"⟩ 0).1 =
      Status.internalError ∧
    Status.internalError.isClientError = false := by
  decide

/-- C2 amended: a missing referenced entity aborts the operation with no
write in every case; the create paths respond 404 (a client error with
not-found semantics), while the update paths respond 500 (a server
error) whose message has not-found wording (UpdateOrder's message even
names the wrong entity). -/
theorem claim_C2_amended :
    (∀ (menus foods : List Doc) (food : FoodPayload) (newId : String) (now : Int),
      findOne menus "menu_id" (valOfOptStr food.menu_id) = none →
      CreateFood menus foods food newId now = (.notFound, "Menu not found", foods)) ∧
    (∀ (tables orders : List Doc) (order : OrderPayload) (newId : String) (now : Int),
      findOne tables "table_id" (valOfOptStr order.table_id) = none →
      CreateOrder tables orders order newId now = (.notFound, "Table not found", orders)) ∧
    (∀ (menus foods : List Doc) (foodId : String) (food : FoodPayload) (now : Int)
        (mid : String),
      food.menu_id = some mid →
      findOne menus "menu_id" (.str mid) = none →
      UpdateFood menus foods foodId food now =
        (.internalError, "message : Menu not found", foods)) ∧
    (∀ (tables orders : List Doc) (orderId : String) (order : OrderPayload) (now : Int)
        (t : String),
      order.table_id = some t →
      findOne tables "table_id" (.str t) = none →
      UpdateOrder tables orders orderId order now =
        (.internalError, "message : Order not found", orders)) ∧
    Status.notFound.isClientError = true ∧
    Status.internalError.isClientError = false := by
  refine ⟨?_, ?_, ?_, ?_, rfl, rfl⟩
  · intro menus foods food newId now h
    simp only [CreateFood, h]
  · intro tables orders order newId now h
    simp only [CreateOrder, h]
  · intro menus foods foodId food now mid hmid h
    simp only [UpdateFood, hmid, h]
  · intro tables orders orderId order now t ht h
    simp only [UpdateOrder, ht, h]

/-- C2 witness: concrete instances of the amended claim. -/
theorem claim_C2_witness :
    UpdateFood [] [fdocA] "f1" ⟨none, none, none, some "mX"⟩ 3 =
      (.internalError, "message : Menu not found", [fdocA]) ∧
    CreateFood [] [] ⟨none, none, none, some "mX"⟩ "f9" 3 =
      (.notFound, "Menu not found", []) ∧
    UpdateOrder [tableDocA] [orderDocA] "o1" ⟨some "tX"⟩ 3 =
      (.internalError, "message : Order not found", [orderDocA]) :=
  ⟨claim_C2_amended.2.2.1 [] [fdocA] "f1" ⟨none, none, none, some "mX"⟩ 3 "mX" rfl rfl,
   claim_C2_amended.1 [] [] ⟨none, none, none, some "mX"⟩ "f9" 3 rfl,
   claim_C2_amended.2.2.2.1 [tableDocA] [orderDocA] "o1" ⟨some "tX"⟩ 3 "tX" rfl (by decide)⟩

/-- C3: GetFoods over a non-empty collection reports total_count as the
size of the whole collection and food_items as the contiguous slice from
the effective startIndex, at most recordsPerPage entries; recordsPerPage
defaults to 10 (absent or below 1), page defaults to 1 (absent or below
1), an explicit startIndex overrides the page-derived offset; concretely,
recordsPerPage=2 page=1 over five records gives two items with
total_count 5, page=3 gives the single remainder item, and an explicit
startIndex at or past the size gives an empty item list with total_count
still populated. -/
theorem claim_C3_pagination :
    (∀ (foods : List Doc) (qR qP qS : Option Int),
      foods ≠ [] →
      0 ≤ effStartIndex (effRecordsPerPage qR) (effPage qP) qS →
      GetFoods foods qR qP qS =
        ListResp.page foods.length
          ((foods.drop (effStartIndex (effRecordsPerPage qR) (effPage qP) qS).toNat).take
            (effRecordsPerPage qR).toNat) ∧
      ((foods.drop (effStartIndex (effRecordsPerPage qR) (effPage qP) qS).toNat).take
            (effRecordsPerPage qR).toNat).length ≤ (effRecordsPerPage qR).toNat) ∧
    effRecordsPerPage none = 10 ∧ effRecordsPerPage (some 0) = 10 ∧
    effPage none = 1 ∧ effPage (some 0) = 1 ∧
    effStartIndex (effRecordsPerPage (some 2)) (effPage (some 3)) none = 4 ∧
    GetFoods fiveFoods (some 2) (some 1) none = ListResp.page 5 [fdocA, fdocB] ∧
    GetFoods fiveFoods (some 2) (some 3) none = ListResp.page 5 [fdocE] ∧
    GetFoods fiveFoods (some 2) (some 1) (some 7) = ListResp.page 5 [] := by
  refine ⟨?_, rfl, rfl, rfl, rfl, rfl, by decide, by decide, by decide⟩
  intro foods qR qP qS hne hpos
  constructor
  · cases foods with
    | nil => exact absurd rfl hne
    | cons d rest =>
        show ListResp.page (d :: rest).length
            (mongoSlice (d :: rest)
              (effStartIndex (effRecordsPerPage qR) (effPage qP) qS)
              (effRecordsPerPage qR)) = _
        rw [mongoSlice_nonneg _ _ _ hpos]
  · exact List.length_take_le _ _

/-- C3 witness: the general pagination shape at recordsPerPage=2, page=2
over the five-record collection. -/
theorem claim_C3_pagination_witness :
    fiveFoods ≠ [] ∧
    (0 : Int) ≤ effStartIndex (effRecordsPerPage (some 2)) (effPage (some 2)) none ∧
    (GetFoods fiveFoods (some 2) (some 2) none =
      ListResp.page fiveFoods.length
        ((fiveFoods.drop (effStartIndex (effRecordsPerPage (some 2))
            (effPage (some 2)) none).toNat).take (effRecordsPerPage (some 2)).toNat) ∧
      ((fiveFoods.drop (effStartIndex (effRecordsPerPage (some 2))
            (effPage (some 2)) none).toNat).take (effRecordsPerPage (some 2)).toNat).length ≤
        (effRecordsPerPage (some 2)).toNat) :=
  ⟨by decide, by decide,
   claim_C3_pagination.1 fiveFoods (some 2) (some 2) none (by decide) (by decide)⟩

/-- C4: when an UpdateMenu payload carries both window dates, the update
is applied only if the start date is strictly after `now` (the clock
reading at check time) and the end date strictly after the start date;
otherwise the request is rejected with an error and nothing (not even
updated_at) is written. -/
theorem claim_C4_menu_window :
    ∀ (menus : List Doc) (menuId : String) (menu : MenuPayload) (now s e : Int),
      menu.start_date = some s → menu.end_date = some e →
      (¬(now < s ∧ s < e) →
        UpdateMenu menus menuId menu now =
          (.internalError, "Kindly correct the time", menus)) ∧
      ((now < s ∧ s < e) →
        UpdateMenu menus menuId menu now =
          (.ok, "Menu updated successfully",
            updateOne menus "menu_id" (.str menuId)
              ([("start_date", Val.time s), ("end_date", Val.time e)] ++
                updateMenuNameCat menu ++ [("updated_at", Val.time now)]))) := by
  intro menus menuId menu now s e hs he
  constructor
  · intro hno
    have hb : inTimeSpan s e now now = false := by
      rcases not_and_or.mp hno with h | h
      · simp [inTimeSpan, h]
      · simp [inTimeSpan, h]
    simp [UpdateMenu, hs, he, hb]
  · intro hyes
    have hb : inTimeSpan s e now now = true := by
      simp [inTimeSpan, hyes.1, hyes.2]
    simp [UpdateMenu, hs, he, hb]

/-- C4 witness: a valid future window (now=5, 10..20) is applied; an
inverted window (20..10) is rejected with the collection untouched. -/
theorem claim_C4_menu_window_witness :
    UpdateMenu [menuDocA] "m1" ⟨"", "", some 10, some 20⟩ 5 =
      (.ok, "Menu updated successfully",
        updateOne [menuDocA] "menu_id" (.str "m1")
          ([("start_date", Val.time 10), ("end_date", Val.time 20)] ++
            updateMenuNameCat ⟨"", "", some 10, some 20⟩ ++
            [("updated_at", Val.time 5)])) ∧
    UpdateMenu [menuDocA] "m1" ⟨"", "", some 20, some 10⟩ 5 =
      (.internalError, "Kindly correct the time", [menuDocA]) :=
  ⟨(claim_C4_menu_window [menuDocA] "m1" ⟨"", "", some 10, some 20⟩ 5 10 20 rfl rfl).2
      (by decide),
   (claim_C4_menu_window [menuDocA] "m1" ⟨"", "", some 20, some 10⟩ 5 20 10 rfl rfl).1
      (by decide)⟩

/-- C5 counterexample: the claim says a submitted price of 9.995 is
stored as 10.0.  Running CreateFood's rounding on the float64 actually
bound from the JSON literal 9.995 (which is 5626684784446013/2^49,
slightly BELOW the decimal 9.995) stores 5623870034678907/2^49 — the
float64 printed as 9.99 — and that value is not 10. -/
theorem claim_C5_counterexample :
    (CreateFood [menuDocA] []
        ⟨none, some (doubleOfRat ((9995 : Rat) / 1000)), none, some "m1"⟩ "f1" 0).2.2 =
      [[("food_id", .str "f1"), ("name", .null),
        ("price", Val.num ((5623870034678907 : Rat) / 562949953421312)),
        ("food_image", .null), ("menu_id", .str "m1"),
        ("created_at", .time 0), ("updated_at", .time 0)]] ∧
    (5623870034678907 : Rat) / 562949953421312 ≠ 10 := by
  constructor
  · have hf : findOne [menuDocA] "menu_id" (Val.str "m1") = some menuDocA := rfl
    simp only [CreateFood, valOfOptStr, hf, dbl_9995, toFixed_9995, List.nil_append]
  · norm_num

/-- C5 amended: the stored price is `toFixed(price, 2)` of the float64
price — round-half-away-from-zero applied in float64 arithmetic, not to
the submitted decimal; because float64(9.995) is strictly below 9.995,
the product with 100 rounds below 999.5 and the price is stored as the
float64 nearest 9.99, not as 10.0. -/
theorem claim_C5_amended :
    (∀ (menus foods : List Doc) (food : FoodPayload) (newId : String) (now : Int)
        (q : Rat) (m : Doc),
      food.price = some q →
      findOne menus "menu_id" (valOfOptStr food.menu_id) = some m →
      CreateFood menus foods food newId now =
        (.created, "Food item created", foods ++
          [[("food_id", .str newId), ("name", valOfOptStr food.name),
            ("price", Val.num (toFixed q 2)),
            ("food_image", valOfOptStr food.food_image),
            ("menu_id", valOfOptStr food.menu_id),
            ("created_at", .time now), ("updated_at", .time now)]])) ∧
    doubleOfRat ((9995 : Rat) / 1000) < (9995 : Rat) / 1000 ∧
    toFixed (doubleOfRat ((9995 : Rat) / 1000)) 2 =
      (5623870034678907 : Rat) / 562949953421312 := by
  refine ⟨?_, ?_, ?_⟩
  · intro menus foods food newId now q m hq hf
    simp only [CreateFood, hf, hq]
  · rw [dbl_9995]
    norm_num
  · rw [dbl_9995, toFixed_9995]

/-- C5 witness: the general stored-price shape at the concrete price 7
(an exact float64). -/
theorem claim_C5_witness :
    CreateFood [menuDocA] [] ⟨none, some 7, none, some "m1"⟩ "f1" 0 =
      (.created, "Food item created",
        [[("food_id", .str "f1"), ("name", .null),
          ("price", Val.num (toFixed 7 2)), ("food_image", .null),
          ("menu_id", .str "m1"), ("created_at", .time 0), ("updated_at", .time 0)]]) :=
  claim_C5_amended.1 [menuDocA] [] ⟨none, some 7, none, some "m1"⟩ "f1" 0 7 menuDocA
    rfl rfl

/-- C6: UpdateFood's set document holds exactly the payload's present
fields (name, price, food_image, menu_id) plus an unconditional
updated_at; applying it leaves every other field of the stored record
unchanged and always refreshes updated_at; and the handler (under a
passing menu check) applies exactly this set document. -/
theorem claim_C6_update_food_frame :
    ∀ (food : FoodPayload) (now : Int),
      ((updateFoodSetDoc food now).map Prod.fst =
        (if food.name.isSome then ["name"] else []) ++
        (if food.price.isSome then ["price"] else []) ++
        (if food.food_image.isSome then ["food_image"] else []) ++
        (if food.menu_id.isSome then ["menu_id"] else []) ++ ["updated_at"]) ∧
      (∀ (d : Doc) (k : String), k ∉ (updateFoodSetDoc food now).map Prod.fst →
        getVal (applySet d (updateFoodSetDoc food now)) k = getVal d k) ∧
      (∀ d : Doc,
        getVal (applySet d (updateFoodSetDoc food now)) "updated_at" =
          some (.time now)) ∧
      (food.menu_id = none →
        ∀ (menus foods : List Doc) (foodId : String),
          UpdateFood menus foods foodId food now =
            (.ok, "Food item updated successfully",
              updateOne foods "food_id" (.str foodId) (updateFoodSetDoc food now))) ∧
      (∀ (mid : String) (m : Doc) (menus foods : List Doc) (foodId : String),
        food.menu_id = some mid →
        findOne menus "menu_id" (.str mid) = some m →
        UpdateFood menus foods foodId food now =
          (.ok, "Food item updated successfully",
            updateOne foods "food_id" (.str foodId) (updateFoodSetDoc food now))) := by
  intro food now
  refine ⟨?_, ?_, ?_, ?_, ?_⟩
  · obtain ⟨n, p, i, m⟩ := food
    cases n <;> cases p <;> cases i <;> cases m <;> rfl
  · intro d k hk
    exact getVal_applySet_not_mem _ d k hk
  · intro d
    unfold updateFoodSetDoc
    exact getVal_applySet_append _ d "updated_at" (Val.time now)
  · intro hmid menus foods foodId
    simp only [UpdateFood, hmid]
  · intro mid m menus foods foodId hmid hf
    simp only [UpdateFood, hmid, hf]

/-- C6 witness: a payload carrying only a price; name is untouched in the
stored record, updated_at is refreshed, and the handler applies the
two-field set document. -/
theorem claim_C6_update_food_frame_witness :
    (updateFoodSetDoc ⟨none, some 7, none, none⟩ 9).map Prod.fst =
      ["price", "updated_at"] ∧
    getVal (applySet fdocA (updateFoodSetDoc ⟨none, some 7, none, none⟩ 9)) "food_id" =
      getVal fdocA "food_id" ∧
    getVal (applySet fdocA (updateFoodSetDoc ⟨none, some 7, none, none⟩ 9)) "updated_at" =
      some (.time 9) ∧
    UpdateFood [menuDocA] [fdocA] "f1" ⟨none, some 7, none, none⟩ 9 =
      (.ok, "Food item updated successfully",
        updateOne [fdocA] "food_id" (.str "f1")
          (updateFoodSetDoc ⟨none, some 7, none, none⟩ 9)) :=
  ⟨(claim_C6_update_food_frame ⟨none, some 7, none, none⟩ 9).1,
   (claim_C6_update_food_frame ⟨none, some 7, none, none⟩ 9).2.1 fdocA "food_id"
     (by decide),
   (claim_C6_update_food_frame ⟨none, some 7, none, none⟩ 9).2.2.1 fdocA,
   (claim_C6_update_food_frame ⟨none, some 7, none, none⟩ 9).2.2.2.1 rfl
     [menuDocA] [fdocA] "f1"⟩

/-- C7 counterexample: the claim says every update whose identifier
matches nothing and whose foreign-key checks (if any) pass performs an
upsert; but UpdateMenu has no foreign-key check at all, and a request
with an inverted date window on an unmatched identifier is rejected with
an error and creates nothing. -/
theorem claim_C7_counterexample :
    getVal menuDocA "menu_id" ≠ some (.str "mZ") ∧
    UpdateMenu [menuDocA] "mZ" ⟨"", "", some 20, some 10⟩ 5 =
      (.internalError, "Kindly correct the time", [menuDocA]) := by
  decide

/-- C7 amended: every update whose identifier matches nothing, whose
foreign-key checks (if any) pass, and — for UpdateMenu — whose date
window (when both dates are supplied) passes the validity check,
succeeds by upserting a new record built from the identifier filter plus
the set document. -/
theorem claim_C7_amended :
    (∀ (menus foods : List Doc) (foodId : String) (food : FoodPayload) (now : Int),
      (∀ d ∈ foods, getVal d "food_id" ≠ some (.str foodId)) →
      (food.menu_id = none ∨
        ∃ mid m, food.menu_id = some mid ∧ findOne menus "menu_id" (.str mid) = some m) →
      UpdateFood menus foods foodId food now =
        (.ok, "Food item updated successfully",
          foods ++ [applySet [("food_id", .str foodId)] (updateFoodSetDoc food now)])) ∧
    (∀ (menus : List Doc) (menuId : String) (menu : MenuPayload) (now : Int),
      (∀ d ∈ menus, getVal d "menu_id" ≠ some (.str menuId)) →
      menu.start_date = none →
      UpdateMenu menus menuId menu now =
        (.ok, "Menu updated successfully",
          menus ++ [applySet [("menu_id", .str menuId)]
            (updateMenuNameCat menu ++ [("updated_at", Val.time now)])])) ∧
    (∀ (menus : List Doc) (menuId : String) (menu : MenuPayload) (now : Int),
      (∀ d ∈ menus, getVal d "menu_id" ≠ some (.str menuId)) →
      menu.end_date = none →
      UpdateMenu menus menuId menu now =
        (.ok, "Menu updated successfully",
          menus ++ [applySet [("menu_id", .str menuId)]
            (updateMenuNameCat menu ++ [("updated_at", Val.time now)])])) ∧
    (∀ (menus : List Doc) (menuId : String) (menu : MenuPayload) (now s e : Int),
      (∀ d ∈ menus, getVal d "menu_id" ≠ some (.str menuId)) →
      menu.start_date = some s → menu.end_date = some e → now < s → s < e →
      UpdateMenu menus menuId menu now =
        (.ok, "Menu updated successfully",
          menus ++ [applySet [("menu_id", .str menuId)]
            ([("start_date", Val.time s), ("end_date", Val.time e)] ++
              updateMenuNameCat menu ++ [("updated_at", Val.time now)])])) ∧
    (∀ (tables orders : List Doc) (orderId : String) (order : OrderPayload) (now : Int),
      (∀ d ∈ orders, getVal d "order_id" ≠ some (.str orderId)) →
      (order.table_id = none ∨
        ∃ t tb, order.table_id = some t ∧ findOne tables "table_id" (.str t) = some tb) →
      UpdateOrder tables orders orderId order now =
        (.ok, "order item updated successfully",
          orders ++ [applySet [("order_id", .str orderId)]
            (match order.table_id with
             | some t => [("table_id", Val.str t), ("updated_at", Val.time now)]
             | none => [("updated_at", Val.time now)])])) := by
  refine ⟨?_, ?_, ?_, ?_, ?_⟩
  · intro menus foods foodId food now hmatch hfk
    rcases hfk with hnone | ⟨mid, m, hmid, hfind⟩
    · simp only [UpdateFood, hnone, updateOne_no_match foods _ _ _ hmatch]
    · simp only [UpdateFood, hmid, hfind, updateOne_no_match foods _ _ _ hmatch]
  · intro menus menuId menu now hmatch hs
    cases he : menu.end_date <;>
      simp only [UpdateMenu, hs, he, updateOne_no_match menus _ _ _ hmatch]
  · intro menus menuId menu now hmatch he
    cases hs : menu.start_date <;>
      simp only [UpdateMenu, hs, he, updateOne_no_match menus _ _ _ hmatch]
  · intro menus menuId menu now s e hmatch hs he h1 h2
    have hb : inTimeSpan s e now now = true := by simp [inTimeSpan, h1, h2]
    simp only [UpdateMenu, hs, he, hb, Bool.not_true, Bool.false_eq_true,
      if_false, updateOne_no_match menus _ _ _ hmatch]
  · intro tables orders orderId order now hmatch hfk
    rcases hfk with hnone | ⟨t, tb, ht, hfind⟩
    · simp only [UpdateOrder, hnone, updateOne_no_match orders _ _ _ hmatch]
    · simp only [UpdateOrder, ht, hfind, updateOne_no_match orders _ _ _ hmatch]

/-- C7 witness: an UpdateFood with a valid menu reference and an
UpdateOrder with no table reference, each against an unmatched
identifier, append the upserted document. -/
theorem claim_C7_amended_witness :
    UpdateFood [menuDocA] [fdocA] "f9" ⟨some "Pizza", none, none, some "m1"⟩ 5 =
      (.ok, "Food item updated successfully",
        [fdocA] ++ [applySet [("food_id", .str "f9")]
          (updateFoodSetDoc ⟨some "Pizza", none, none, some "m1"⟩ 5)]) ∧
    UpdateOrder [tableDocA] [orderDocA] "o9" ⟨none⟩ 5 =
      (.ok, "order item updated successfully",
        [orderDocA] ++ [applySet [("order_id", .str "o9")]
          [("updated_at", Val.time 5)]]) :=
  ⟨claim_C7_amended.1 [menuDocA] [fdocA] "f9" ⟨some "Pizza", none, none, some "m1"⟩ 5
      (by decide) (Or.inr ⟨"m1", menuDocA, rfl, rfl⟩),
   claim_C7_amended.2.2.2.2 [tableDocA] [orderDocA] "o9" ⟨none⟩ 5
      (by decide) (Or.inl rfl)⟩

/-- C8 counterexample: the claim says every list request on an empty
collection answers with the "no items" indicator message; GetMenus on an
empty collection instead answers with a plain (empty) JSON array, which
is not the message shape. -/
theorem claim_C8_counterexample :
    GetMenus [] = ListResp.array [] ∧ (GetMenus []).isMessage = false := by
  decide

/-- C8 amended: on an empty collection GetFoods and GetOrders answer
with their explicit "no items" indicator messages — a shape distinct
from a page object with total_count 0 — while GetMenus answers with an
empty JSON array. -/
theorem claim_C8_amended :
    (∀ qR qP qS : Option Int,
      GetFoods [] qR qP qS = ListResp.message "No food items found") ∧
    GetOrders [] = ListResp.message "No orders found" ∧
    GetMenus [] = ListResp.array [] ∧
    (ListResp.message "No food items found").isMessage = true ∧
    (∀ (n : Nat) (items : List Doc), (ListResp.page n items).isMessage = false) := by
  exact ⟨fun _ _ _ => rfl, rfl, rfl, rfl, fun _ _ => rfl⟩

/-- C9: an UpdateMenu payload whose Name (or Category) is the empty
string has that field skipped: it is absent from the set document and
applying the update leaves the stored value unchanged, in both the dated
and undated branches — so the public update interface cannot write an
empty menu name or category; UpdateFood's pointer field, by contrast,
can carry an explicit empty string into the set document. -/
theorem claim_C9_empty_string_skipped :
    ∀ (menu : MenuPayload) (now : Int) (d : Doc),
      (menu.name = "" →
        "name" ∉ (updateMenuNameCat menu).map Prod.fst ∧
        getVal (applySet d (updateMenuNameCat menu ++ [("updated_at", Val.time now)]))
            "name" = getVal d "name" ∧
        (∀ s e : Int,
          getVal (applySet d ([("start_date", Val.time s), ("end_date", Val.time e)] ++
              updateMenuNameCat menu ++ [("updated_at", Val.time now)])) "name" =
            getVal d "name")) ∧
      (menu.category = "" →
        "category" ∉ (updateMenuNameCat menu).map Prod.fst ∧
        getVal (applySet d (updateMenuNameCat menu ++ [("updated_at", Val.time now)]))
            "category" = getVal d "category" ∧
        (∀ s e : Int,
          getVal (applySet d ([("start_date", Val.time s), ("end_date", Val.time e)] ++
              updateMenuNameCat menu ++ [("updated_at", Val.time now)])) "category" =
            getVal d "category")) ∧
      (∀ food : FoodPayload, food.name = some "" →
        ("name", Val.str "") ∈ updateFoodSetDoc food now) := by
  intro menu now d
  refine ⟨?_, ?_, ?_⟩
  · intro hn
    have hmem : "name" ∉ (updateMenuNameCat menu).map Prod.fst := by
      by_cases hc : menu.category = "" <;>
        simp [updateMenuNameCat, hn, hc]
    refine ⟨hmem, ?_, ?_⟩
    · apply getVal_applySet_not_mem
      simp only [List.map_append, List.mem_append]
      push_neg
      exact ⟨hmem, by simp⟩
    · intro s e
      apply getVal_applySet_not_mem
      simp only [List.map_append, List.mem_append]
      push_neg
      exact ⟨⟨by simp, hmem⟩, by simp⟩
  · intro hc
    have hmem : "category" ∉ (updateMenuNameCat menu).map Prod.fst := by
      by_cases hn : menu.name = "" <;>
        simp [updateMenuNameCat, hn, hc]
    refine ⟨hmem, ?_, ?_⟩
    · apply getVal_applySet_not_mem
      simp only [List.map_append, List.mem_append]
      push_neg
      exact ⟨hmem, by simp⟩
    · intro s e
      apply getVal_applySet_not_mem
      simp only [List.map_append, List.mem_append]
      push_neg
      exact ⟨⟨by simp, hmem⟩, by simp⟩
  · intro food hname
    unfold updateFoodSetDoc
    rw [hname]
    simp

/-- C9 witness: a payload with empty name and non-empty category leaves
the stored name readable unchanged while UpdateFood can store "". -/
theorem claim_C9_empty_string_skipped_witness :
    ("name" ∉ (updateMenuNameCat ⟨"", "drinks", none, none⟩).map Prod.fst ∧
      getVal (applySet menuDocA
          (updateMenuNameCat ⟨"", "drinks", none, none⟩ ++ [("updated_at", Val.time 4)]))
        "name" = getVal menuDocA "name" ∧
      (∀ s e : Int,
        getVal (applySet menuDocA
            ([("start_date", Val.time s), ("end_date", Val.time e)] ++
              updateMenuNameCat ⟨"", "drinks", none, none⟩ ++
              [("updated_at", Val.time 4)])) "name" = getVal menuDocA "name")) ∧
    ("name", Val.str "") ∈ updateFoodSetDoc ⟨some "", none, none, none⟩ 4 :=
  ⟨(claim_C9_empty_string_skipped ⟨"", "drinks", none, none⟩ 4 menuDocA).1 rfl,
   (claim_C9_empty_string_skipped ⟨"", "drinks", none, none⟩ 4 menuDocA).2.2
     ⟨some "", none, none, none⟩ rfl⟩

/-- C10: UpdateFood writes a present price into the set document exactly
as supplied — no `toFixed` — so an updated record can hold a price with
more than two decimal places (the float64 of 9.995 times 100 is not an
integer), while CreateFood is the path that stores `toFixed(price, 2)`. -/
theorem claim_C10_update_price_unrounded :
    (∀ (food : FoodPayload) (now : Int) (q : Rat),
      food.price = some q → ("price", Val.num q) ∈ updateFoodSetDoc food now) ∧
    (∀ (menus foods : List Doc) (foodId : String) (food : FoodPayload) (now : Int),
      food.menu_id = none →
      UpdateFood menus foods foodId food now =
        (.ok, "Food item updated successfully",
          updateOne foods "food_id" (.str foodId) (updateFoodSetDoc food now))) ∧
    ("price", Val.num (doubleOfRat ((9995 : Rat) / 1000))) ∈
      updateFoodSetDoc ⟨none, some (doubleOfRat ((9995 : Rat) / 1000)), none, none⟩ 0 ∧
    (¬ ∃ n : Int, doubleOfRat ((9995 : Rat) / 1000) * 100 = (n : Rat)) ∧
    (∀ (menus foods : List Doc) (food : FoodPayload) (newId : String) (now : Int)
        (q : Rat) (m : Doc),
      food.price = some q →
      findOne menus "menu_id" (valOfOptStr food.menu_id) = some m →
      ∃ doc : Doc,
        CreateFood menus foods food newId now =
          (.created, "Food item created", foods ++ [doc]) ∧
        getVal doc "price" = some (Val.num (toFixed q 2))) := by
  refine ⟨?_, ?_, ?_, ?_, ?_⟩
  · intro food now q hq
    unfold updateFoodSetDoc
    rw [hq]
    cases food.name <;> simp
  · intro menus foods foodId food now hmid
    simp only [UpdateFood, hmid]
  · unfold updateFoodSetDoc
    simp
  · rw [dbl_9995]
    rintro ⟨n, hn⟩
    have h1 : (999 : Rat) < (n : Rat) := by
      rw [← hn]
      norm_num
    have h2 : (n : Rat) < 1000 := by
      rw [← hn]
      norm_num
    have h1' : (999 : Int) < n := by exact_mod_cast h1
    have h2' : n < 1000 := by exact_mod_cast h2
    omega
  · intro menus foods food newId now q m hq hf
    simp only [CreateFood, hf, hq]
    exact ⟨_, rfl, rfl⟩

/-- C10 witness: a price of 7 flows into the update set document as-is,
the handler applies that document, and the create path stores
`toFixed 7 2`. -/
theorem claim_C10_update_price_unrounded_witness :
    ("price", Val.num 7) ∈ updateFoodSetDoc ⟨none, some 7, none, none⟩ 2 ∧
    UpdateFood [] [fdocA] "f1" ⟨none, some 7, none, none⟩ 2 =
      (.ok, "Food item updated successfully",
        updateOne [fdocA] "food_id" (.str "f1")
          (updateFoodSetDoc ⟨none, some 7, none, none⟩ 2)) ∧
    (∃ doc : Doc,
      CreateFood [menuDocA] [] ⟨none, some 7, none, some "m1"⟩ "f9" 2 =
        (.created, "Food item created", [] ++ [doc]) ∧
      getVal doc "price" = some (Val.num (toFixed 7 2))) :=
  ⟨claim_C10_update_price_unrounded.1 ⟨none, some 7, none, none⟩ 2 7 rfl,
   claim_C10_update_price_unrounded.2.1 [] [fdocA] "f1" ⟨none, some 7, none, none⟩ 2 rfl,
   claim_C10_update_price_unrounded.2.2.2.2 [menuDocA] []
     ⟨none, some 7, none, some "m1"⟩ "f9" 2 7 menuDocA rfl rfl⟩

end RM
